import Mathlib

/-! CRUD-Go: authentication service, repository and middleware

A shallow embedding of `models`, `repositories`, `services` and `middlewares`
of the Go server, and theorems about login, registration, profile update,
logout and bearer-token authentication.

Conventions of the embedding
* A Go result pair `(*models.User, error)` is a pair `Option User × Option GoError`.
* Stateful collaborators are passed explicitly: the store state, the response
  writer, and one clock reading per call of `time.Now()`.
* The external libraries (bcrypt, golang-jwt, database/sql driver) are
  parameters; the code of the repository around them is translated as written.
* `log.Printf` calls have no effect on any value and are left out.
-/

namespace CrudGo

/-! ## models -/

/-- The record `models.User`. -/
structure User where
  Id : Int
  Name : String
  LastName : String
  Email : String
  Avatar : String
  Password : String
deriving DecidableEq, Repr

/-- The record `models.LoginUser`. -/
structure LoginUser where
  Email : String
  Password : String
deriving DecidableEq, Repr

/-- The zero value `models.User{}`. -/
def User.zero : User := ⟨0, "", "", "", "", ""⟩

/-! ## errors and time -/

/-- Go error values: the sentinel `sql.ErrNoRows`, compared by identity, and
errors carrying a text (`errors.New`, `fmt.Errorf`, driver errors). -/
inductive GoError where
  | ErrNoRows
  | text (msg : String)
deriving DecidableEq, Repr

/-- The method `err.Error()`. -/
def GoError.Error : GoError → String
  | .ErrNoRows => "sql: no rows in result set"
  | .text msg => msg

/-- An instant, in nanoseconds since the Unix epoch. -/
abbrev Time := Int

/-- The duration `time.Hour`, in nanoseconds. -/
def Hour : Int := 3600 * 1000000000

/-- The method `t.Unix()`: whole seconds since the epoch, rounded down. -/
def Unix (t : Time) : Int := t / 1000000000

/-! ## database/sql over a table of users -/

/-- The state of the database: the rows of table `users` in storage order, the
next value of the id sequence, and the error the driver raises for every
statement while the connection is unusable (`none` when healthy). -/
structure DB where
  users : List User
  nextId : Int
  fault : Option String
deriving DecidableEq, Repr

/-- The call `QueryRowContext(...).Scan(dest...)`: the deferred driver error, then
`sql.ErrNoRows` when the result set is empty, then the arity check of
`Rows.Scan` on the first row. -/
def scanFirst (fault : Option String) (rows : List User) (ncols ndest : Nat) :
    Except GoError User :=
  match fault with
  | some msg => .error (.text msg)
  | none =>
    match rows with
    | [] => .error .ErrNoRows
    | row :: _ =>
      if ncols = ndest then .ok row
      else .error (.text ("sql: expected " ++ toString ncols ++
        " destination arguments in Scan, not " ++ toString ndest))

/-! ## repositories -/

/-- The interface `repositories.UserRepository` over a store state `σ`. The
method `UpdateUser` receives its record by pointer, so it also returns the
record as the call leaves it. -/
structure UserRepository (σ : Type) where
  FindByEmail : σ → String → (Option User × Option GoError) × σ
  FindByID : σ → Int → (Option User × Option GoError) × σ
  RegisterUser : σ → String → String → String → String →
    (Option User × Option GoError) × σ
  UpdateUser : σ → User → (Option User × Option GoError) × User × σ

/-- The method `userRepositoryImpl.FindByID`: the query selects one column, `id`,
and scans it into five destinations. -/
def implFindByID (db : DB) (id : Int) : (Option User × Option GoError) × DB :=
  match scanFirst db.fault (db.users.filter (fun r => r.Id = id)) 1 5 with
  | .error err =>
    if err = GoError.ErrNoRows then ((none, none), db) else ((none, some err), db)
  | .ok row => ((some { User.zero with Id := row.Id }, none), db)

/-- The method `userRepositoryImpl.FindByEmail`. -/
def implFindByEmail (db : DB) (email : String) : (Option User × Option GoError) × DB :=
  match scanFirst db.fault (db.users.filter (fun r => r.Email = email)) 5 5 with
  | .error err =>
    if err = GoError.ErrNoRows then ((none, none), db) else ((none, some err), db)
  | .ok row =>
    ((some { User.zero with Id := row.Id, Name := row.Name, LastName := row.LastName,
                            Email := row.Email, Password := row.Password }, none), db)

/-- The statement `UPDATE users SET name, lastName, email, password WHERE id`:
the table after it. -/
def applyUpdate (users : List User) (user : User) : List User :=
  users.map (fun r =>
    if r.Id = user.Id then
      { r with Name := user.Name, LastName := user.LastName, Email := user.Email,
               Password := user.Password }
    else r)

/-- The method `userRepositoryImpl.UpdateUser`. -/
def implUpdateUser (db : DB) (user : User) : (Option User × Option GoError) × User × DB :=
  match db.fault with
  | some msg => ((none, some (.text msg)), user, db)
  | none =>
    let db1 : DB := { db with users := applyUpdate db.users user }
    match scanFirst none (db1.users.filter (fun r => r.Id = user.Id)) 5 5 with
    | .error err =>
      if err = GoError.ErrNoRows then ((none, none), user, db1)
      else ((none, some err), user, db1)
    | .ok row =>
      let user1 : User :=
        { user with Id := row.Id, Name := row.Name, LastName := row.LastName,
                    Email := row.Email, Password := row.Password }
      ((some user1, none), user1, db1)

/-- The method `userRepositoryImpl.RegisterUser`: the insert draws the id from the
sequence and returns the new row. -/
def implRegisterUser (db : DB) (name lastName email password : String) :
    (Option User × Option GoError) × DB :=
  match db.fault with
  | some msg => ((none, some (.text msg)), db)
  | none =>
    let row : User := ⟨db.nextId, name, lastName, email, "", password⟩
    let db1 : DB := { db with users := db.users ++ [row], nextId := db.nextId + 1 }
    match scanFirst none [row] 5 5 with
    | .error err => ((none, some err), db1)
    | .ok r =>
      ((some { Id := r.Id, Name := r.Name, LastName := r.LastName, Email := r.Email,
               Avatar := "", Password := r.Password }, none), db1)

/-- The repository `NewUserRepository(DB)`. -/
def userRepositoryImpl : UserRepository DB where
  FindByEmail := implFindByEmail
  FindByID := implFindByID
  RegisterUser := implRegisterUser
  UpdateUser := implUpdateUser

/-! ## external libraries -/

/-- The package `golang.org/x/crypto/bcrypt` as used by the service.
`CompareHashAndPassword` returns its error, `none` on a match. -/
structure Bcrypt where
  GenerateFromPassword : String → Nat → Except GoError String
  CompareHashAndPassword : String → String → Option GoError

/-- The constant `bcrypt.DefaultCost`. -/
def DefaultCost : Nat := 10

/-- The signing methods registered by `golang-jwt/jwt/v4`. -/
inductive SigningMethod where
  | HS256 | HS384 | HS512
  | RS256 | RS384 | RS512
  | ES256 | ES384 | ES512
  | PS256 | PS384 | PS512
  | EdDSA
  | none
deriving DecidableEq, Repr

/-- The type assertion `method.(*jwt.SigningMethodHMAC)`. -/
def SigningMethod.isHMAC : SigningMethod → Bool
  | .HS256 | .HS384 | .HS512 => true
  | _ => false

/-- A value held in `jwt.MapClaims` (`interface{}`): Go integers on the issuing
side; on the parsing side what `encoding/json` decodes, numbers as float64
(given by their exact value). -/
inductive Value where
  | int (i : Int)
  | str (s : String)
  | float64 (q : ℚ)
  | bool (b : Bool)
  | null
  | composite
deriving DecidableEq

/-- The map `jwt.MapClaims`, as an association list. -/
abbrev MapClaims := List (String × Value)

/-- The record `jwt.Token` after `ParseUnverified`, with the signing input
(the first two segments) kept for verification. -/
structure Token where
  Method : SigningMethod
  alg : String
  Claims : MapClaims
  signingInput : String
  Signature : String

/-- The package `golang-jwt/jwt/v4`: serialisation and signing, decoding,
signature verification and the time validation of the claims. -/
structure JwtLib where
  SignedString : SigningMethod → MapClaims → String → Except GoError String
  ParseUnverified : String → Except GoError Token
  Verify : SigningMethod → String → String → String → Bool
  Valid : MapClaims → Time → Bool

/-- The method `Parser.ParseWithClaims` of the library: decode, ask the key
function for the key, validate the claims, verify the signature. The result is
the token and the error; the token is valid exactly when the error is nil. -/
def ParseWithClaims (J : JwtLib) (tokenString : String) (now : Time)
    (keyFunc : Token → Except GoError String) : Option Token × Option GoError :=
  match J.ParseUnverified tokenString with
  | .error err => (none, some err)
  | .ok token =>
    match keyFunc token with
    | .error err => (some token, some err)
    | .ok key =>
      if ¬ J.Valid token.Claims now then
        (some token, some (.text "token claims are not valid"))
      else if ¬ J.Verify token.Method token.signingInput token.Signature key then
        (some token, some (.text "signature is invalid"))
      else (some token, none)

/-! ## net/http cookies -/

/-- The type `http.SameSite`. -/
inductive SameSite where
  | DefaultMode | LaxMode | StrictMode | NoneMode
deriving DecidableEq, Repr

/-- The fields of `http.Cookie` that the service sets. -/
structure Cookie where
  Name : String
  Value : String
  Expires : Time
  HttpOnly : Bool
  Secure : Bool
  Path : String
  SameSite : SameSite
deriving DecidableEq, Repr

/-- The response writer: the `Set-Cookie` headers added so far, in order. -/
structure ResponseWriter where
  cookies : List Cookie
deriving DecidableEq, Repr

/-- The function `http.SetCookie`: one more `Set-Cookie` header. -/
def SetCookie (w : ResponseWriter) (cookie : Cookie) : ResponseWriter :=
  { w with cookies := w.cookies ++ [cookie] }

/-! ## services -/

/-- A call of a method of the repository, with its arguments. -/
inductive StoreCall where
  | FindByEmail (email : String)
  | FindByID (id : Int)
  | RegisterUser (name lastName email password : String)
  | UpdateUser (user : User)
deriving DecidableEq, Repr

/-- The claims built by `generateJWT` for a user at clock reading `now`. -/
def jwtClaims (user : User) (now : Time) : MapClaims :=
  [ ("iss", .str "server-go"),
    ("sub", .int user.Id),
    ("iat", .int (Unix now)),
    ("exp", .int (Unix (now + 24 * Hour))),
    ("nbf", .int (Unix now)),
    ("user_id", .int user.Id),
    ("user_Name", .str user.Name),
    ("user_LastName", .str user.LastName),
    ("user_Email", .str user.Email) ]

/-- The function `generateJWT`: the claims, signed with HS512 under the secret. -/
def generateJWT (J : JwtLib) (jwtSecret : String) (user : User) (now : Time) :
    Except GoError String :=
  J.SignedString SigningMethod.HS512 (jwtClaims user now) jwtSecret

/-- What a call of `userService.Login` leaves behind: the returned pair, the
response writer, the store and the calls made on the repository. -/
structure LoginResult (σ : Type) where
  token : String
  err : Option GoError
  w : ResponseWriter
  store : σ
  calls : List StoreCall

/-- The method `userService.Login`. The clock is read once in `generateJWT`
(`nowToken`) and once for the cookie (`nowCookie`). -/
def Login {σ : Type} (R : UserRepository σ) (H : Bcrypt) (J : JwtLib) (jwtSecret : String)
    (st : σ) (input : LoginUser) (w : ResponseWriter) (nowToken nowCookie : Time) :
    LoginResult σ :=
  let found := R.FindByEmail st input.Email
  let calls := [StoreCall.FindByEmail input.Email]
  match found.1 with
  | (_, some err) =>
    if err = GoError.ErrNoRows then
      ⟨"", some (.text "user not found"), w, found.2, calls⟩
    else
      ⟨"", some (.text ("database error: " ++ err.Error)), w, found.2, calls⟩
  | (none, none) => ⟨"", some (.text "user not found"), w, found.2, calls⟩
  | (some user, none) =>
    match H.CompareHashAndPassword user.Password input.Password with
    | some _ => ⟨"", some (.text "invalid credentials"), w, found.2, calls⟩
    | none =>
      match generateJWT J jwtSecret user nowToken with
      | .error err =>
        ⟨"", some (.text ("error generating token: " ++ err.Error)), w, found.2, calls⟩
      | .ok token =>
        let w1 := SetCookie w
          { Name := "session_token",
            Value := token,
            Expires := nowCookie + 72 * Hour,
            HttpOnly := true,
            Secure := false,
            Path := "/",
            SameSite := SameSite.LaxMode }
        ⟨token, none, w1, found.2, calls⟩

/-- What a call of `userService.Register` leaves behind. `panicked` records the
nil dereference in `generateJWT` when the repository returns neither a user nor
an error from the insert. -/
structure RegisterResult (σ : Type) where
  token : String
  err : Option GoError
  panicked : Bool
  store : σ
  calls : List StoreCall

/-- The method `userService.Register`. -/
def Register {σ : Type} (R : UserRepository σ) (H : Bcrypt) (J : JwtLib) (jwtSecret : String)
    (st : σ) (input : User) (nowToken : Time) : RegisterResult σ :=
  let found := R.FindByEmail st input.Email
  let calls := [StoreCall.FindByEmail input.Email]
  match found.1 with
  | (_, some err) => ⟨"", some err, false, found.2, calls⟩
  | (some _, none) => ⟨"", some (.text "user already exists"), false, found.2, calls⟩
  | (none, none) =>
    match H.GenerateFromPassword input.Password DefaultCost with
    | .error _ => ⟨"", some (.text "failed to hash password"), false, found.2, calls⟩
    | .ok hashedPassword =>
      let input1 : User := { input with Password := hashedPassword }
      let inserted :=
        R.RegisterUser found.2 input1.Name input1.LastName input1.Email input1.Password
      let calls1 := calls ++
        [StoreCall.RegisterUser input1.Name input1.LastName input1.Email input1.Password]
      match inserted.1 with
      | (_, some err) => ⟨"", some err, false, inserted.2, calls1⟩
      | (none, none) => ⟨"", none, true, inserted.2, calls1⟩
      | (some registeredUser, none) =>
        match generateJWT J jwtSecret registeredUser nowToken with
        | .error err => ⟨"", some err, false, inserted.2, calls1⟩
        | .ok token => ⟨token, none, false, inserted.2, calls1⟩

/-- What a call of `userService.UpdateUser` leaves behind. -/
structure UpdateResult (σ : Type) where
  user : Option User
  err : Option GoError
  store : σ
  calls : List StoreCall

/-- The part of `userService.UpdateUser` after the password step: update in the
repository, then fetch again by id. -/
def updateAndFetch {σ : Type} (R : UserRepository σ) (st : σ) (user : User) :
    UpdateResult σ :=
  let updated := R.UpdateUser st user
  let calls := [StoreCall.UpdateUser user]
  match updated.1 with
  | (_, some err) => ⟨none, some err, updated.2.2, calls⟩
  | (_, none) =>
    let user1 := updated.2.1
    let fetched := R.FindByID updated.2.2 user1.Id
    let calls1 := calls ++ [StoreCall.FindByID user1.Id]
    match fetched.1 with
    | (_, some err) => ⟨none, some err, fetched.2, calls1⟩
    | (updatedUser, none) => ⟨updatedUser, none, fetched.2, calls1⟩

/-- The method `userService.UpdateUser`. -/
def UpdateUser {σ : Type} (R : UserRepository σ) (H : Bcrypt) (st : σ) (user : User) :
    UpdateResult σ :=
  if user.Password ≠ "" then
    match H.GenerateFromPassword user.Password DefaultCost with
    | .error _ => ⟨none, some (.text "failed to hash password"), st, []⟩
    | .ok hashPassword => updateAndFetch R st { user with Password := hashPassword }
  else updateAndFetch R st user

/-- What a call of `userService.Logout` leaves behind. -/
structure LogoutResult (σ : Type) where
  err : Option GoError
  w : ResponseWriter
  store : σ
  calls : List StoreCall

/-- The method `userService.Logout`. -/
def Logout {σ : Type} (_R : UserRepository σ) (st : σ) (w : ResponseWriter) (now : Time) :
    LogoutResult σ :=
  let w1 := SetCookie w
    { Name := "session_token",
      Value := "",
      Expires := now + (-1) * Hour,
      HttpOnly := true,
      Secure := false,
      Path := "/",
      SameSite := SameSite.LaxMode }
  ⟨none, w1, st, []⟩

/-! ## middlewares -/

/-- The function `strings.HasPrefix`. -/
def HasPrefix (s pre : String) : Bool := pre.data.isPrefixOf s.data

/-- The function `strings.TrimPrefix`. -/
def TrimPrefix (s pre : String) : String :=
  if HasPrefix s pre then ⟨s.data.drop pre.data.length⟩ else s

/-- The conversion `int(f)` of a float64: the fraction is dropped; a value outside
the range of int gives the smallest int (the result on amd64). -/
def goInt (q : ℚ) : Int :=
  let t := Int.tdiv q.num q.den
  if -2 ^ 63 ≤ t ∧ t < 2 ^ 63 then t else -2 ^ 63

/-- What the handler leaves in the `gin.Context`: the JSON response (status and
the text under key "error"), whether the chain was aborted, the value set under
key "user", and whether the next handler was called. -/
structure Outcome where
  response : Option (Nat × String)
  aborted : Bool
  user : Option User
  next : Bool
deriving DecidableEq, Repr

/-- The response `c.JSON(http.StatusUnauthorized, gin.H{"error": msg})` followed by
`c.Abort()`. -/
def unauthorized (msg : String) : Outcome :=
  ⟨some (401, msg), true, none, false⟩

/-- The key function handed to `jwt.ParseWithClaims` by the middleware. -/
def keyFunc (JwtSecret : String) (token : Token) : Except GoError String :=
  if ¬ token.Method.isHMAC ∨ token.Method ≠ SigningMethod.HS512 then
    .error (.text ("unexpected signing method: " ++ token.alg))
  else .ok JwtSecret

/-- The handler returned by `AuthMiddleware`, on the value of the Authorization
header (empty when absent), at clock reading `now`. The test `err != nil ||
!token.Valid` is the first two branches of the match; the library returns no nil
token with a nil error. -/
def AuthMiddleware (J : JwtLib) (JwtSecret : String) (authHeader : String) (now : Time) :
    Outcome :=
  if authHeader = "" then unauthorized "Authorization header missing"
  else
    let tokenString := TrimPrefix authHeader "Bearer "
    if tokenString = authHeader then unauthorized "Bearer token missing"
    else
      match ParseWithClaims J tokenString now (keyFunc JwtSecret) with
      | (_, some _) => unauthorized "Invalid Token"
      | (none, none) => unauthorized "Invalid Token"
      | (some token, none) =>
        match token.Claims.lookup "user_id", token.Claims.lookup "user_Name",
              token.Claims.lookup "user_LastName", token.Claims.lookup "user_Email" with
        | some (.float64 userId), some (.str name), some (.str lastName),
          some (.str email) =>
          ⟨none, false,
            some { User.zero with Id := goInt userId, Name := name, LastName := lastName,
                                  Email := email }, true⟩
        | _, _, _, _ => unauthorized "Invalid token data"

/-! ## encoding/json on the claims -/

/-- The float64 nearest to a natural number (ties to even), by its exact value;
for magnitudes in the range of int64. -/
def roundToFloat64 (n : Nat) : Nat :=
  if n < 2 ^ 53 then n
  else
    let sh := Nat.log2 n - 52
    let q := n / 2 ^ sh
    let r := n % 2 ^ sh
    let q1 := if 2 ^ (sh - 1) < r ∨ (r = 2 ^ (sh - 1) ∧ q % 2 = 1) then q + 1 else q
    q1 * 2 ^ sh

/-- A Go integer written as a JSON number and decoded into `interface{}`: the
nearest float64. -/
def float64OfInt (i : Int) : ℚ :=
  if i < 0 then ((-(roundToFloat64 i.natAbs : Int) : Int) : ℚ)
  else (((roundToFloat64 i.natAbs : Int)) : ℚ)

/-- A claim value after `json.Marshal` and `json.Unmarshal` into `interface{}`:
integers come back as float64, the other values as they were. -/
def jsonRoundTrip : Value → Value
  | .int i => .float64 (float64OfInt i)
  | v => v

/-- The claims a parser decodes from the serialisation of `claims`. -/
def decodedClaims (claims : MapClaims) : MapClaims :=
  claims.map (fun kv => (kv.1, jsonRoundTrip kv.2))

/-! ## controllers -/

/-- The interface `services.UserService` over a service state `τ`. `Register` also
tells whether the call panicked. -/
structure UserService (τ : Type) where
  Login : τ → LoginUser → ResponseWriter → (String × Option GoError) × ResponseWriter × τ
  Register : τ → User → (String × Option GoError) × Bool × τ
  UpdateUser : τ → User → (Option User × Option GoError) × τ
  Logout : τ → ResponseWriter → Option GoError × ResponseWriter × τ

/-- The service `NewUserService(userRepo)`, with the two clock readings that `Login`
and `generateJWT` take. -/
def NewUserService {σ : Type} (R : UserRepository σ) (H : Bcrypt) (J : JwtLib)
    (jwtSecret : String) (nowToken nowCookie : Time) : UserService σ where
  Login := fun st input w =>
    let r := Login R H J jwtSecret st input w nowToken nowCookie
    ((r.token, r.err), r.w, r.store)
  Register := fun st input =>
    let r := Register R H J jwtSecret st input nowToken
    ((r.token, r.err), r.panicked, r.store)
  UpdateUser := fun st user =>
    let r := UpdateUser R H st user
    ((r.user, r.err), r.store)
  Logout := fun st w =>
    let r := Logout R st w nowCookie
    (r.err, r.w, r.store)

/-- The parts of gin and strconv that the handlers call, over a type `β` of request
bodies: `c.ShouldBindJSON` into a zero `models.LoginUser`, `c.ShouldBindJSON` into a
`models.User` holding the given values, and `strconv.Atoi`. -/
structure Gin (β : Type) where
  ShouldBindLoginUser : β → Except GoError LoginUser
  ShouldBindUser : β → User → Except GoError User
  Atoi : String → Except GoError Int

/-- A value in a `gin.H` response body. -/
inductive JsonValue where
  | str (s : String)
  | user (u : Option User)
deriving DecidableEq, Repr

/-- The response `c.JSON(status, gin.H{...})`. -/
structure Response where
  status : Nat
  body : List (String × JsonValue)
deriving DecidableEq, Repr

/-- A call of a method of the service, with its argument. -/
inductive ServiceCall where
  | Login (input : LoginUser)
  | Register (input : User)
  | UpdateUser (user : User)
deriving DecidableEq, Repr

/-- What a handler of the controller leaves behind: the response, the response
writer, the state of the service, the calls made on the service, and whether the
handler panicked. -/
structure HandlerResult (τ : Type) where
  response : Response
  w : ResponseWriter
  svc : τ
  calls : List ServiceCall
  panicked : Bool

/-- The handler `UserController.Login`. -/
def UserController.Login {τ β : Type} (G : Gin β) (S : UserService τ) (svc : τ) (body : β)
    (w : ResponseWriter) : HandlerResult τ :=
  match G.ShouldBindLoginUser body with
  | .error _ => ⟨⟨400, [("error", .str "Invalid input format")]⟩, w, svc, [], false⟩
  | .ok loginData =>
    if loginData.Email = "" ∨ loginData.Password = "" then
      ⟨⟨400, [("error", .str "Email and password are required")]⟩, w, svc, [], false⟩
    else
      let r := S.Login svc loginData w
      let calls := [ServiceCall.Login loginData]
      match r.1 with
      | (_, some err) =>
        if err.Error = "user not found" then
          ⟨⟨404, [("error", .str "User not found")]⟩, r.2.1, r.2.2, calls, false⟩
        else if err.Error = "invalid credentials" then
          ⟨⟨401, [("error", .str "Invalid credentials")]⟩, r.2.1, r.2.2, calls, false⟩
        else
          ⟨⟨500, [("error", .str "An unexpected error occurred")]⟩, r.2.1, r.2.2, calls,
            false⟩
      | (token, none) =>
        ⟨⟨200, [("token", .str token), ("message", .str "Login successful")]⟩, r.2.1, r.2.2,
          calls, false⟩

/-- The handler `UserController.Register`. -/
def UserController.Register {τ β : Type} (G : Gin β) (S : UserService τ) (svc : τ) (body : β)
    (w : ResponseWriter) : HandlerResult τ :=
  match G.ShouldBindUser body User.zero with
  | .error err =>
    ⟨⟨400, [("error", .str "Invalid input data"), ("details", .str err.Error)]⟩, w, svc, [],
      false⟩
  | .ok registerData =>
    if registerData.Name = "" ∨ registerData.LastName = "" ∨ registerData.Email = "" ∨
        registerData.Password = "" then
      ⟨⟨400, [("error", .str "All fields are required")]⟩, w, svc, [], false⟩
    else
      let r := S.Register svc registerData
      let calls := [ServiceCall.Register registerData]
      if r.2.1 then ⟨⟨500, []⟩, w, r.2.2, calls, true⟩
      else
        match r.1 with
        | (_, some err) =>
          if err.Error = "user already exists" then
            ⟨⟨409, [("error", .str "User already exists")]⟩, w, r.2.2, calls, false⟩
          else if err.Error = "failed to hash password" then
            ⟨⟨500, [("error", .str "Failed to process password")]⟩, w, r.2.2, calls, false⟩
          else
            ⟨⟨500, [("error", .str "Failed to register the user")]⟩, w, r.2.2, calls, false⟩
        | (token, none) =>
          ⟨⟨201, [("message", .str "User registered successfully"), ("token", .str token)]⟩,
            w, r.2.2, calls, false⟩

/-- The handler `UserController.UpdateUser`, on the route parameter "id" and the
body. -/
def UserController.UpdateUser {τ β : Type} (G : Gin β) (S : UserService τ) (svc : τ)
    (idParam : String) (body : β) (w : ResponseWriter) : HandlerResult τ :=
  match G.Atoi idParam with
  | .error _ => ⟨⟨400, [("error", .str "Invalid user ID")]⟩, w, svc, [], false⟩
  | .ok id =>
    let user : User := { User.zero with Id := id }
    match G.ShouldBindUser body user with
    | .error err =>
      ⟨⟨400, [("error", .str "Invalid input data"), ("details", .str err.Error)]⟩, w, svc, [],
        false⟩
    | .ok user1 =>
      let r := S.UpdateUser svc user1
      let calls := [ServiceCall.UpdateUser user1]
      match r.1 with
      | (_, some err) =>
        ⟨⟨500, [("error", .str "Failed to update user"), ("details", .str err.Error)]⟩, w,
          r.2, calls, false⟩
      | (updatedUser, none) =>
        ⟨⟨200, [("message", .str "Successfully updated the user"),
                ("user", .user updatedUser)]⟩, w, r.2, calls, false⟩

/-! ## Test fixtures: a small store and stand-ins for the libraries -/

/-- A stand-in hasher: the hash is the plaintext behind a fixed marker, and a
hash verifies against exactly that plaintext. -/
def toyBcrypt : Bcrypt where
  GenerateFromPassword := fun password _ => .ok ("$2a$10$" ++ password)
  CompareHashAndPassword := fun hash password =>
    if hash = "$2a$10$" ++ password then none
    else some (.text "crypto/bcrypt: hashedPassword is not the hash of the given password")

/-- The user held by the store `db1`, as `FindByEmail` returns it. -/
def alice : User := ⟨1, "A", "B", "a@x.com", "", "$2a$10$p1"⟩

/-- A healthy store holding one user, whose password is "p1". -/
def db1 : DB := { users := [alice], nextId := 2, fault := none }

/-- A clock reading: 1700000000 seconds after the epoch. -/
def t0 : Time := 1700000000 * 1000000000

/-- A user whose id, 2^53 + 1, is not the value of any float64. -/
def carol : User := ⟨9007199254740993, "C", "D", "c@x.com", "", "$2a$10$p3"⟩

/-- A stand-in token library. Signing always yields "tok1", which decodes to the
claims of `u` issued at `t0` as JSON returns them; "tok2" carries a user_id that is
a string; "tok3" and "tok4" carry the claims of `u` under the methods none and
HS256. Every signature "sig" verifies under key "k", whatever the method. -/
def toyJwtFor (u : User) : JwtLib where
  SignedString := fun _ _ _ => .ok "tok1"
  ParseUnverified := fun s =>
    if s = "tok1" then
      .ok ⟨SigningMethod.HS512, "HS512", decodedClaims (jwtClaims u t0), "h.c", "sig"⟩
    else if s = "tok2" then
      .ok ⟨SigningMethod.HS512, "HS512",
        [("user_id", .str "1"), ("user_Name", .str "A"), ("user_LastName", .str "B"),
         ("user_Email", .str "a@x.com")], "h.c", "sig"⟩
    else if s = "tok3" then
      .ok ⟨SigningMethod.none, "none", decodedClaims (jwtClaims u t0), "h.c", "sig"⟩
    else if s = "tok4" then
      .ok ⟨SigningMethod.HS256, "HS256", decodedClaims (jwtClaims u t0), "h.c", "sig"⟩
    else .error (.text "token contains an invalid number of segments")
  Verify := fun _ _ signature key => decide (signature = "sig" ∧ key = "k")
  Valid := fun _ _ => true

/-- The stand-in token library for the user `alice`. -/
def toyJwt : JwtLib := toyJwtFor alice

/-- The store `db1` behind a connection that fails every statement with `msg`. -/
def dbDown (msg : String) : DB := { db1 with fault := some msg }

/-- A stand-in for gin over bodies given as the list of the string members of a
JSON object: a member that is absent leaves the field as it was; the route ids it
reads are "1" and "7". -/
def toyGin : Gin (List (String × String)) where
  ShouldBindLoginUser := fun body =>
    .ok ⟨(body.lookup "email").getD "", (body.lookup "password").getD ""⟩
  ShouldBindUser := fun body user =>
    .ok { user with Name := (body.lookup "name").getD user.Name,
                    LastName := (body.lookup "lastName").getD user.LastName,
                    Email := (body.lookup "email").getD user.Email,
                    Avatar := (body.lookup "avatar").getD user.Avatar,
                    Password := (body.lookup "password").getD user.Password }
  Atoi := fun s =>
    if s = "1" then .ok 1
    else if s = "7" then .ok 7
    else .error (.text "strconv.Atoi: invalid syntax")

/-- The service of the application over the SQL repository, with the stand-in
libraries, secret "k" and clock `t0`. -/
def toyService : UserService DB :=
  NewUserService userRepositoryImpl toyBcrypt toyJwt "k" t0 t0

/-! ## Lemmas on the repository -/

theorem implFindByEmail_store (db : DB) (email : String) :
    (implFindByEmail db email).2 = db := by
  unfold implFindByEmail
  split
  · split <;> rfl
  · rfl

theorem implFindByEmail_absent (db : DB) (email : String) (hf : db.fault = none)
    (habs : ∀ r ∈ db.users, r.Email ≠ email) :
    implFindByEmail db email = ((none, none), db) := by
  have hnil : db.users.filter (fun r => decide (r.Email = email)) = [] := by
    rw [List.filter_eq_nil_iff]
    intro r hr
    simpa using habs r hr
  simp [implFindByEmail, scanFirst, hf, hnil]

theorem implFindByEmail_present (db : DB) (email : String) (row : User) (rest : List User)
    (hf : db.fault = none)
    (hrow : db.users.filter (fun r => decide (r.Email = email)) = row :: rest) :
    implFindByEmail db email =
      ((some ⟨row.Id, row.Name, row.LastName, row.Email, "", row.Password⟩, none), db) := by
  simp [implFindByEmail, scanFirst, hf, hrow, User.zero]

/-! ## Login: the failure cases -/

theorem Login_of_lookup_empty {σ : Type} (R : UserRepository σ) (H : Bcrypt) (J : JwtLib)
    (jwtSecret : String) (st : σ) (input : LoginUser) (w : ResponseWriter)
    (nowToken nowCookie : Time)
    (hlook : (R.FindByEmail st input.Email).1 = (none, none) ∨
      ∃ u, (R.FindByEmail st input.Email).1 = (u, some GoError.ErrNoRows)) :
    Login R H J jwtSecret st input w nowToken nowCookie =
      ⟨"", some (.text "user not found"), w, (R.FindByEmail st input.Email).2,
        [StoreCall.FindByEmail input.Email]⟩ := by
  rcases hlook with h | ⟨u, h⟩
  · simp [Login, h]
  · simp [Login, h]

theorem Login_of_mismatch {σ : Type} (R : UserRepository σ) (H : Bcrypt) (J : JwtLib)
    (jwtSecret : String) (st : σ) (input : LoginUser) (w : ResponseWriter)
    (nowToken nowCookie : Time) (user : User) (e : GoError)
    (hlook : (R.FindByEmail st input.Email).1 = (some user, none))
    (hcmp : H.CompareHashAndPassword user.Password input.Password = some e) :
    Login R H J jwtSecret st input w nowToken nowCookie =
      ⟨"", some (.text "invalid credentials"), w, (R.FindByEmail st input.Email).2,
        [StoreCall.FindByEmail input.Email]⟩ := by
  simp [Login, hlook, hcmp]

/-- C1: `userService.Login` fails with "user not found" when the lookup by email
yields no identity (a nil user with a nil error, or the error `sql.ErrNoRows`), and
with "invalid credentials" when an identity is found and the hasher rejects the
supplied password against the stored hash; in both cases the token is empty and
the response writer is left as it was, so no cookie is written. For the SQL
repository this covers every healthy store: no row with the email gives the first
failure, and a first row with that email whose hash is rejected gives the second. -/
theorem Login_failures (H : Bcrypt) (J : JwtLib) (jwtSecret : String) (input : LoginUser)
    (w : ResponseWriter) (nowToken nowCookie : Time) :
    (∀ (σ : Type) (R : UserRepository σ) (st : σ),
      ((R.FindByEmail st input.Email).1 = (none, none) ∨
        ∃ u, (R.FindByEmail st input.Email).1 = (u, some GoError.ErrNoRows)) →
      (Login R H J jwtSecret st input w nowToken nowCookie).token = "" ∧
      (Login R H J jwtSecret st input w nowToken nowCookie).err =
        some (.text "user not found") ∧
      (Login R H J jwtSecret st input w nowToken nowCookie).w = w) ∧
    (∀ (σ : Type) (R : UserRepository σ) (st : σ) (user : User) (e : GoError),
      (R.FindByEmail st input.Email).1 = (some user, none) →
      H.CompareHashAndPassword user.Password input.Password = some e →
      (Login R H J jwtSecret st input w nowToken nowCookie).token = "" ∧
      (Login R H J jwtSecret st input w nowToken nowCookie).err =
        some (.text "invalid credentials") ∧
      (Login R H J jwtSecret st input w nowToken nowCookie).w = w) ∧
    (∀ db : DB, db.fault = none → (∀ r ∈ db.users, r.Email ≠ input.Email) →
      Login userRepositoryImpl H J jwtSecret db input w nowToken nowCookie =
        ⟨"", some (.text "user not found"), w, db, [StoreCall.FindByEmail input.Email]⟩) ∧
    (∀ (db : DB) (row : User) (rest : List User) (e : GoError), db.fault = none →
      db.users.filter (fun r => decide (r.Email = input.Email)) = row :: rest →
      H.CompareHashAndPassword row.Password input.Password = some e →
      Login userRepositoryImpl H J jwtSecret db input w nowToken nowCookie =
        ⟨"", some (.text "invalid credentials"), w, db,
          [StoreCall.FindByEmail input.Email]⟩) := by
  refine ⟨?_, ?_, ?_, ?_⟩
  · intro σ R st h
    rw [Login_of_lookup_empty R H J jwtSecret st input w nowToken nowCookie h]
    exact ⟨rfl, rfl, rfl⟩
  · intro σ R st user e h hc
    rw [Login_of_mismatch R H J jwtSecret st input w nowToken nowCookie user e h hc]
    exact ⟨rfl, rfl, rfl⟩
  · intro db hf habs
    have h := implFindByEmail_absent db input.Email hf habs
    have h1 : (userRepositoryImpl.FindByEmail db input.Email).1 = (none, none) := by
      show (implFindByEmail db input.Email).1 = _
      rw [h]
    rw [Login_of_lookup_empty userRepositoryImpl H J jwtSecret db input w nowToken nowCookie
      (Or.inl h1)]
    show LoginResult.mk _ _ _ (implFindByEmail db input.Email).2 _ = _
    rw [h]
  · intro db row rest e hf hrow hc
    have h := implFindByEmail_present db input.Email row rest hf hrow
    have h1 : (userRepositoryImpl.FindByEmail db input.Email).1 =
        (some ⟨row.Id, row.Name, row.LastName, row.Email, "", row.Password⟩, none) := by
      show (implFindByEmail db input.Email).1 = _
      rw [h]
    rw [Login_of_mismatch userRepositoryImpl H J jwtSecret db input w nowToken nowCookie
      _ e h1 hc]
    show LoginResult.mk _ _ _ (implFindByEmail db input.Email).2 _ = _
    rw [h]

/-- Witness for C1: in the store `db1`, a login for an unknown email fails with
"user not found" and a login for the known email with a wrong password fails with
"invalid credentials". -/
theorem Login_failures_witness :
    Login userRepositoryImpl toyBcrypt toyJwt "k" db1 ⟨"b@x.com", "p1"⟩ ⟨[]⟩ t0 t0 =
      ⟨"", some (.text "user not found"), ⟨[]⟩, db1, [StoreCall.FindByEmail "b@x.com"]⟩ ∧
    Login userRepositoryImpl toyBcrypt toyJwt "k" db1 ⟨"a@x.com", "p2"⟩ ⟨[]⟩ t0 t0 =
      ⟨"", some (.text "invalid credentials"), ⟨[]⟩, db1,
        [StoreCall.FindByEmail "a@x.com"]⟩ :=
  ⟨(Login_failures toyBcrypt toyJwt "k" ⟨"b@x.com", "p1"⟩ ⟨[]⟩ t0 t0).2.2.1 db1 rfl
      (by decide),
   (Login_failures toyBcrypt toyJwt "k" ⟨"a@x.com", "p2"⟩ ⟨[]⟩ t0 t0).2.2.2 db1 alice []
      (.text "crypto/bcrypt: hashedPassword is not the hash of the given password")
      rfl (by decide) (by decide)⟩

/-! ## The middleware: rejections -/

theorem TrimPrefix_eq_self_iff (s pre : String) (hpre : pre ≠ "") :
    TrimPrefix s pre = s ↔ HasPrefix s pre = false := by
  unfold TrimPrefix
  constructor
  · intro h
    by_contra hp
    have hp1 : HasPrefix s pre = true := by simpa using hp
    rw [if_pos hp1] at h
    have hlen := congrArg (fun t : String => t.data.length) h
    simp only [List.length_drop] at hlen
    have hle : pre.data.length ≤ s.data.length := by
      unfold HasPrefix at hp1
      exact (List.isPrefixOf_iff_prefix.mp hp1).length_le
    have hpos : 0 < pre.data.length := by
      rcases pre with ⟨l⟩
      cases l with
      | nil => exact absurd rfl hpre
      | cons a t => simp
    omega
  · intro h
    simp [h]

theorem ParseWithClaims_ok_iff (J : JwtLib) (JwtSecret tokenString : String) (now : Time) :
    (ParseWithClaims J tokenString now (keyFunc JwtSecret)).2 = none ↔
      ∃ t, J.ParseUnverified tokenString = .ok t ∧ t.Method = SigningMethod.HS512 ∧
        J.Valid t.Claims now = true ∧
        J.Verify t.Method t.signingInput t.Signature JwtSecret = true ∧
        ParseWithClaims J tokenString now (keyFunc JwtSecret) = (some t, none) := by
  unfold ParseWithClaims
  cases hp : J.ParseUnverified tokenString with
  | error e => simp
  | ok t =>
    by_cases hm : t.Method = SigningMethod.HS512
    · have hk : keyFunc JwtSecret t = .ok JwtSecret := by
        simp [keyFunc, hm, SigningMethod.isHMAC]
      by_cases hv : J.Valid t.Claims now = true
      · by_cases hs : J.Verify t.Method t.signingInput t.Signature JwtSecret = true
        · have hs1 := hs
          rw [hm] at hs1
          simp [hk, hv, hs1, hm]
        · have hs1 := hs
          rw [hm] at hs1
          simp [hk, hv, hs1, hm]
      · simp [hk, hv, hm]
    · have hk : keyFunc JwtSecret t =
          .error (.text ("unexpected signing method: " ++ t.alg)) := by
        simp [keyFunc, hm]
      simp [hk, hm]

theorem AuthMiddleware_of_parse_error (J : JwtLib) (JwtSecret authHeader : String)
    (now : Time) (hne : authHeader ≠ "") (hp : HasPrefix authHeader "Bearer " = true)
    (herr : (ParseWithClaims J (TrimPrefix authHeader "Bearer ") now
      (keyFunc JwtSecret)).2 ≠ none) :
    AuthMiddleware J JwtSecret authHeader now = unauthorized "Invalid Token" := by
  have hb : ("Bearer " : String) ≠ "" := by decide
  have ht : ¬ TrimPrefix authHeader "Bearer " = authHeader := by
    rw [TrimPrefix_eq_self_iff authHeader "Bearer " hb]
    simp [hp]
  unfold AuthMiddleware
  rw [if_neg hne]
  simp only [ht, if_false]
  rcases hres : ParseWithClaims J (TrimPrefix authHeader "Bearer ") now (keyFunc JwtSecret)
    with ⟨tk, e⟩
  rw [hres] at herr
  cases e with
  | none => exact absurd rfl herr
  | some e => cases tk <;> rfl

/-- C2: the handler of `AuthMiddleware` answers 401, aborts the chain, sets no
"user" value and does not call the next handler whenever a step fails, with the
message of the first failing step: an empty Authorization header gives
"Authorization header missing"; a non-empty header without the leading "Bearer "
(equivalently, one that `strings.TrimPrefix` leaves unchanged) gives "Bearer token
missing"; a token that `jwt.ParseWithClaims` rejects (undecodable, key function
error, claims out of their time window, bad signature) gives "Invalid Token"; an
accepted token whose user_id is not a float64 or whose user_Name, user_LastName or
user_Email is missing or not a string gives "Invalid token data". -/
theorem AuthMiddleware_rejections (J : JwtLib) (JwtSecret authHeader : String) (now : Time) :
    (∀ msg, (unauthorized msg).response = some (401, msg) ∧
      (unauthorized msg).aborted = true ∧ (unauthorized msg).user = none ∧
      (unauthorized msg).next = false) ∧
    (authHeader = "" →
      AuthMiddleware J JwtSecret authHeader now =
        unauthorized "Authorization header missing") ∧
    ((TrimPrefix authHeader "Bearer " = authHeader ↔
      HasPrefix authHeader "Bearer " = false)) ∧
    (authHeader ≠ "" → HasPrefix authHeader "Bearer " = false →
      AuthMiddleware J JwtSecret authHeader now = unauthorized "Bearer token missing") ∧
    (authHeader ≠ "" → HasPrefix authHeader "Bearer " = true →
      (ParseWithClaims J (TrimPrefix authHeader "Bearer ") now (keyFunc JwtSecret)).2 ≠ none →
      AuthMiddleware J JwtSecret authHeader now = unauthorized "Invalid Token") ∧
    (∀ token, authHeader ≠ "" → HasPrefix authHeader "Bearer " = true →
      ParseWithClaims J (TrimPrefix authHeader "Bearer ") now (keyFunc JwtSecret) =
        (some token, none) →
      ¬ ((∃ q, token.Claims.lookup "user_id" = some (.float64 q)) ∧
         (∃ n, token.Claims.lookup "user_Name" = some (.str n)) ∧
         (∃ l, token.Claims.lookup "user_LastName" = some (.str l)) ∧
         (∃ e, token.Claims.lookup "user_Email" = some (.str e))) →
      AuthMiddleware J JwtSecret authHeader now = unauthorized "Invalid token data") := by
  have hb : ("Bearer " : String) ≠ "" := by decide
  refine ⟨fun msg => ⟨rfl, rfl, rfl, rfl⟩, ?_, TrimPrefix_eq_self_iff _ _ hb, ?_, ?_, ?_⟩
  · intro h
    simp [AuthMiddleware, h]
  · intro hne hp
    have ht := (TrimPrefix_eq_self_iff authHeader "Bearer " hb).mpr hp
    simp [AuthMiddleware, hne, ht]
  · exact AuthMiddleware_of_parse_error J JwtSecret authHeader now
  · intro token hne hp hres hbad
    have ht : ¬ TrimPrefix authHeader "Bearer " = authHeader := by
      rw [TrimPrefix_eq_self_iff authHeader "Bearer " hb]
      simp [hp]
    unfold AuthMiddleware
    rw [if_neg hne]
    simp only [ht, if_false, hres]
    split
    · rename_i q n l e h1 h2 h3 h4
      exact absurd ⟨⟨q, h1⟩, ⟨n, h2⟩, ⟨l, h3⟩, ⟨e, h4⟩⟩ hbad
    · rfl

/-- Witness for C2: each of the four rejections, on concrete headers. -/
theorem AuthMiddleware_rejections_witness :
    AuthMiddleware toyJwt "k" "" t0 = unauthorized "Authorization header missing" ∧
    AuthMiddleware toyJwt "k" "Token tok1" t0 = unauthorized "Bearer token missing" ∧
    AuthMiddleware toyJwt "k" "Bearer junk" t0 = unauthorized "Invalid Token" ∧
    AuthMiddleware toyJwt "k" "Bearer tok2" t0 = unauthorized "Invalid token data" :=
  ⟨(AuthMiddleware_rejections toyJwt "k" "" t0).2.1 rfl,
   (AuthMiddleware_rejections toyJwt "k" "Token tok1" t0).2.2.2.1 (by decide) (by decide),
   (AuthMiddleware_rejections toyJwt "k" "Bearer junk" t0).2.2.2.2.1 (by decide) (by decide)
     (by decide),
   (AuthMiddleware_rejections toyJwt "k" "Bearer tok2" t0).2.2.2.2.2
     ⟨SigningMethod.HS512, "HS512",
        [("user_id", .str "1"), ("user_Name", .str "A"), ("user_LastName", .str "B"),
         ("user_Email", .str "a@x.com")], "h.c", "sig"⟩
     (by decide) (by decide) rfl
     (by
       rintro ⟨⟨q, hq⟩, _⟩
       simp [List.lookup] at hq)⟩

/-! ## The signing method -/

theorem TrimPrefix_append (pre s : String) : TrimPrefix (pre ++ s) pre = s := by
  have hp : HasPrefix (pre ++ s) pre = true := by
    unfold HasPrefix
    rw [List.isPrefixOf_iff_prefix, String.data_append]
    exact List.prefix_append _ _
  unfold TrimPrefix
  rw [if_pos hp]
  simp [String.data_append]

theorem bearer_header_facts (tok : String) :
    ("Bearer " ++ tok ≠ "") ∧ HasPrefix ("Bearer " ++ tok) "Bearer " = true ∧
      TrimPrefix ("Bearer " ++ tok) "Bearer " = tok := by
  refine ⟨?_, ?_, TrimPrefix_append _ _⟩
  · intro h
    have hl := congrArg String.length h
    simp [String.length_append] at hl
    exact absurd hl.1 (by decide)
  · unfold HasPrefix
    rw [List.isPrefixOf_iff_prefix, String.data_append]
    exact List.prefix_append _ _

theorem keyFunc_of_ne (JwtSecret : String) (token : Token)
    (hm : token.Method ≠ SigningMethod.HS512) :
    keyFunc JwtSecret token =
      .error (.text ("unexpected signing method: " ++ token.alg)) := by
  simp [keyFunc, hm]

/-- C3: the key function of `AuthMiddleware` hands out the secret exactly when the
method of the token is HS512; for every other method (none, HS256, HS384 and the
RSA, ECDSA, RSA-PSS and EdDSA families) it returns the error "unexpected signing
method: <alg>", and the handler then answers 401 "Invalid Token" whatever the
library would make of the signature; `generateJWT` signs with HS512. -/
theorem keyFunc_allows_only_HS512 (J : JwtLib) (JwtSecret : String) :
    (∀ token : Token, (∃ key, keyFunc JwtSecret token = .ok key) ↔
      token.Method = SigningMethod.HS512) ∧
    (∀ (token : Token) (key : String), keyFunc JwtSecret token = .ok key →
      key = JwtSecret) ∧
    (∀ token : Token, token.Method ≠ SigningMethod.HS512 →
      keyFunc JwtSecret token =
        .error (.text ("unexpected signing method: " ++ token.alg))) ∧
    (∀ (tokenString : String) (token : Token) (now : Time),
      J.ParseUnverified tokenString = .ok token →
      token.Method ≠ SigningMethod.HS512 →
      AuthMiddleware J JwtSecret ("Bearer " ++ tokenString) now =
        unauthorized "Invalid Token") ∧
    (∀ (user : User) (now : Time),
      generateJWT J JwtSecret user now =
        J.SignedString SigningMethod.HS512 (jwtClaims user now) JwtSecret) := by
  refine ⟨?_, ?_, keyFunc_of_ne JwtSecret, ?_, fun _ _ => rfl⟩
  · intro token
    constructor
    · rintro ⟨key, hk⟩
      by_contra hm
      rw [keyFunc_of_ne JwtSecret token hm] at hk
      cases hk
    · intro hm
      exact ⟨JwtSecret, by simp [keyFunc, hm, SigningMethod.isHMAC]⟩
  · intro token key hk
    by_cases hm : token.Method = SigningMethod.HS512
    · have : keyFunc JwtSecret token = .ok JwtSecret := by
        simp [keyFunc, hm, SigningMethod.isHMAC]
      rw [this] at hk
      cases hk
      rfl
    · rw [keyFunc_of_ne JwtSecret token hm] at hk
      cases hk
  · intro tokenString token now hp hm
    obtain ⟨hne, hpre, htrim⟩ := bearer_header_facts tokenString
    apply AuthMiddleware_of_parse_error J JwtSecret ("Bearer " ++ tokenString) now hne hpre
    rw [htrim]
    intro hnone
    obtain ⟨t, ht, hmt, _⟩ := (ParseWithClaims_ok_iff J JwtSecret tokenString now).mp hnone
    rw [hp] at ht
    cases ht
    exact hm hmt

/-- Witness for C3: tokens under the methods none and HS256, whose signature the
stand-in library would accept, are rejected by the handler. -/
theorem keyFunc_allows_only_HS512_witness :
    AuthMiddleware toyJwt "k" ("Bearer " ++ "tok3") t0 = unauthorized "Invalid Token" ∧
    AuthMiddleware toyJwt "k" ("Bearer " ++ "tok4") t0 = unauthorized "Invalid Token" :=
  ⟨(keyFunc_allows_only_HS512 toyJwt "k").2.2.2.1 "tok3"
      ⟨SigningMethod.none, "none", decodedClaims (jwtClaims alice t0), "h.c", "sig"⟩ t0
      rfl (by decide),
   (keyFunc_allows_only_HS512 toyJwt "k").2.2.2.1 "tok4"
      ⟨SigningMethod.HS256, "HS256", decodedClaims (jwtClaims alice t0), "h.c", "sig"⟩ t0
      rfl (by decide)⟩

/-! ## The round trip of a token -/

theorem roundToFloat64_of_le (n : Nat) (h : n ≤ 2 ^ 53) : roundToFloat64 n = n := by
  rcases Nat.lt_or_ge n (2 ^ 53) with hlt | hge
  · unfold roundToFloat64
    rw [if_pos hlt]
  · have hn : n = 2 ^ 53 := Nat.le_antisymm h hge
    have hlog : Nat.log2 (2 ^ 53) = 53 := by
      apply Nat.le_antisymm
      · have := (Nat.log2_lt (n := 2 ^ 53) (k := 54) (by norm_num)).mpr (by norm_num)
        omega
      · exact (Nat.le_log2 (by norm_num)).mpr (Nat.le_refl _)
    subst hn
    unfold roundToFloat64
    rw [if_neg (by norm_num)]
    simp only [hlog]
    norm_num

theorem goInt_intCast (k : Int) (h1 : -2 ^ 63 ≤ k) (h2 : k < 2 ^ 63) :
    goInt (k : ℚ) = k := by
  unfold goInt
  simp only [Rat.num_intCast, Rat.den_intCast, Nat.cast_one, Int.tdiv_one]
  rw [if_pos ⟨h1, h2⟩]

theorem goInt_float64OfInt (i : Int) (h1 : -2 ^ 53 ≤ i) (h2 : i ≤ 2 ^ 53) :
    goInt (float64OfInt i) = i := by
  have hn : i.natAbs ≤ 2 ^ 53 := by omega
  unfold float64OfInt
  rw [roundToFloat64_of_le _ hn]
  by_cases hneg : i < 0
  · rw [if_pos hneg, goInt_intCast _ (by omega) (by omega)]
    omega
  · rw [if_neg hneg, goInt_intCast _ (by omega) (by omega)]
    omega

theorem goInt_float64OfInt_carol :
    goInt (float64OfInt 9007199254740993) = 9007199254740992 := by
  have hlog : Nat.log2 9007199254740993 = 53 := by
    apply Nat.le_antisymm
    · have := (Nat.log2_lt (n := 9007199254740993) (k := 54) (by norm_num)).mpr (by norm_num)
      omega
    · exact (Nat.le_log2 (by norm_num)).mpr (by norm_num)
  have hr : roundToFloat64 9007199254740993 = 9007199254740992 := by
    unfold roundToFloat64
    rw [if_neg (by norm_num)]
    simp only [hlog]
    norm_num
  unfold float64OfInt
  rw [if_neg (by norm_num)]
  have hab : (9007199254740993 : Int).natAbs = 9007199254740993 := rfl
  rw [hab, hr, goInt_intCast _ (by norm_num) (by norm_num)]
  rfl

theorem AuthMiddleware_of_issued (J : JwtLib) (jwtSecret tokenString : String)
    (user : User) (now later : Time) (token : Token)
    (hparse : J.ParseUnverified tokenString = .ok token)
    (hmethod : token.Method = SigningMethod.HS512)
    (hclaims : token.Claims = decodedClaims (jwtClaims user now))
    (hvalid : J.Valid token.Claims later = true)
    (hverify : J.Verify token.Method token.signingInput token.Signature jwtSecret = true) :
    AuthMiddleware J jwtSecret ("Bearer " ++ tokenString) later =
      ⟨none, false,
        some ⟨goInt (float64OfInt user.Id), user.Name, user.LastName, user.Email, "", ""⟩,
        true⟩ := by
  obtain ⟨hne, hpre, htrim⟩ := bearer_header_facts tokenString
  have hb : ("Bearer " : String) ≠ "" := by decide
  have ht : ¬ TrimPrefix ("Bearer " ++ tokenString) "Bearer " = "Bearer " ++ tokenString := by
    rw [TrimPrefix_eq_self_iff _ "Bearer " hb]
    simp [hpre]
  have hpw : ParseWithClaims J tokenString later (keyFunc jwtSecret) = (some token, none) := by
    have hk : keyFunc jwtSecret token = .ok jwtSecret := by
      simp [keyFunc, hmethod, SigningMethod.isHMAC]
    unfold ParseWithClaims
    simp [hparse, hk, hvalid, hverify]
  unfold AuthMiddleware
  rw [if_neg hne]
  simp only [ht, if_false]
  rw [htrim, hpw]
  simp [hclaims, decodedClaims, jwtClaims, jsonRoundTrip, List.lookup, User.zero]

/-- C4, counterexample: for the user `carol`, whose id is 2^53 + 1, the token that
`generateJWT` returns decodes to the JSON image of the claims built from `carol`,
verifies under the same secret and is within its time window, yet the identity the
handler attaches has id 2^53, not the id of `carol`. -/
theorem roundtrip_id_counterexample :
    generateJWT (toyJwtFor carol) "k" carol t0 = .ok "tok1" ∧
    (toyJwtFor carol).ParseUnverified "tok1" =
      .ok ⟨SigningMethod.HS512, "HS512", decodedClaims (jwtClaims carol t0), "h.c", "sig"⟩ ∧
    (toyJwtFor carol).Verify SigningMethod.HS512 "h.c" "sig" "k" = true ∧
    AuthMiddleware (toyJwtFor carol) "k" ("Bearer " ++ "tok1") t0 =
      ⟨none, false, some ⟨9007199254740992, "C", "D", "c@x.com", "", ""⟩, true⟩ ∧
    carol.Id = 9007199254740993 ∧
    (AuthMiddleware (toyJwtFor carol) "k" ("Bearer " ++ "tok1") t0).user ≠
      some ⟨carol.Id, carol.Name, carol.LastName, carol.Email, "", ""⟩ := by
  have hmw : AuthMiddleware (toyJwtFor carol) "k" ("Bearer " ++ "tok1") t0 =
      ⟨none, false, some ⟨9007199254740992, "C", "D", "c@x.com", "", ""⟩, true⟩ := by
    rw [AuthMiddleware_of_issued (toyJwtFor carol) "k" "tok1" carol t0 t0
      ⟨SigningMethod.HS512, "HS512", decodedClaims (jwtClaims carol t0), "h.c", "sig"⟩
      rfl rfl rfl rfl rfl]
    show Outcome.mk none false
      (some ⟨goInt (float64OfInt 9007199254740993), "C", "D", "c@x.com", "", ""⟩) true = _
    rw [goInt_float64OfInt_carol]
  refine ⟨rfl, rfl, rfl, hmw, rfl, ?_⟩
  rw [hmw]
  simp [carol]

/-- C4, amended: for every identity whose id lies between -2^53 and 2^53, if the
library serialises the claims that `generateJWT` builds into a token which it decodes
back to their JSON image under HS512, whose signature verifies under the same secret
and whose time window contains the moment of presentation, then the handler, given
"Bearer " followed by that token, sets no response, does not abort, calls the next
handler and attaches an identity with the Id, Name, LastName and Email of the source
and an empty Avatar and Password. -/
theorem roundtrip_of_small_id (J : JwtLib) (jwtSecret tokenString : String) (user : User)
    (now later : Time) (token : Token)
    (hlo : -2 ^ 53 ≤ user.Id) (hhi : user.Id ≤ 2 ^ 53)
    (hsign : generateJWT J jwtSecret user now = .ok tokenString)
    (hparse : J.ParseUnverified tokenString = .ok token)
    (hmethod : token.Method = SigningMethod.HS512)
    (hclaims : token.Claims = decodedClaims (jwtClaims user now))
    (hvalid : J.Valid token.Claims later = true)
    (hverify : J.Verify token.Method token.signingInput token.Signature jwtSecret = true) :
    J.SignedString SigningMethod.HS512 (jwtClaims user now) jwtSecret = .ok tokenString ∧
    AuthMiddleware J jwtSecret ("Bearer " ++ tokenString) later =
      ⟨none, false, some ⟨user.Id, user.Name, user.LastName, user.Email, "", ""⟩, true⟩ := by
  refine ⟨hsign, ?_⟩
  rw [AuthMiddleware_of_issued J jwtSecret tokenString user now later token hparse hmethod
    hclaims hvalid hverify, goInt_float64OfInt user.Id hlo hhi]

/-- Witness for C4 (amended): the token issued for `alice` brings back `alice`
without her password. -/
theorem roundtrip_of_small_id_witness :
    AuthMiddleware toyJwt "k" ("Bearer " ++ "tok1") t0 =
      ⟨none, false, some ⟨1, "A", "B", "a@x.com", "", ""⟩, true⟩ :=
  (roundtrip_of_small_id toyJwt "k" "tok1" alice t0 t0
    ⟨SigningMethod.HS512, "HS512", decodedClaims (jwtClaims alice t0), "h.c", "sig"⟩
    (by decide) (by decide) rfl rfl rfl rfl rfl rfl).2

/-! ## Passwords handed to the store -/

theorem Register_insert_call {σ : Type} (R : UserRepository σ) (H : Bcrypt) (J : JwtLib)
    (jwtSecret : String) (st : σ) (input : User) (nowToken : Time)
    (name lastName email password : String)
    (hcall : StoreCall.RegisterUser name lastName email password ∈
      (Register R H J jwtSecret st input nowToken).calls) :
    H.GenerateFromPassword input.Password DefaultCost = .ok password ∧
      name = input.Name ∧ lastName = input.LastName ∧ email = input.Email := by
  simp only [Register] at hcall
  rcases hf : (R.FindByEmail st input.Email).1 with ⟨fu, fe⟩
  rw [hf] at hcall
  cases fe with
  | some e => simp at hcall
  | none =>
    cases fu with
    | some u => simp at hcall
    | none =>
      cases hg : H.GenerateFromPassword input.Password DefaultCost with
      | error e => simp [hg] at hcall
      | ok hashed =>
        simp only [hg] at hcall
        have hmem : StoreCall.RegisterUser name lastName email password ∈
            [StoreCall.FindByEmail input.Email] ++
              [StoreCall.RegisterUser input.Name input.LastName input.Email hashed] := by
          rcases hi : (R.RegisterUser (R.FindByEmail st input.Email).2 input.Name
            input.LastName input.Email hashed).1 with ⟨iu, ie⟩
          rw [hi] at hcall
          cases ie with
          | some e => simpa using hcall
          | none =>
            cases iu with
            | none => simpa using hcall
            | some ru =>
              simp only at hcall
              cases hj : generateJWT J jwtSecret ru nowToken with
              | error e => rw [hj] at hcall; simpa using hcall
              | ok tok => rw [hj] at hcall; simpa using hcall
        simp at hmem
        obtain ⟨h1, h2, h3, h4⟩ := hmem
        subst h4
        exact ⟨rfl, h1, h2, h3⟩

theorem updateAndFetch_calls {σ : Type} (R : UserRepository σ) (st : σ) (user : User)
    (c : StoreCall) (hc : c ∈ (updateAndFetch R st user).calls) :
    c = StoreCall.UpdateUser user ∨ c = StoreCall.FindByID (R.UpdateUser st user).2.1.Id := by
  simp only [updateAndFetch] at hc
  rcases hu : (R.UpdateUser st user).1 with ⟨uu, ue⟩
  rw [hu] at hc
  cases ue with
  | some e =>
    simp at hc
    exact Or.inl hc
  | none =>
    simp only at hc
    rcases hf : (R.FindByID (R.UpdateUser st user).2.2 (R.UpdateUser st user).2.1.Id).1
      with ⟨fu, fe⟩
    rw [hf] at hc
    cases fe with
    | some e => simpa using hc
    | none => simpa using hc

theorem UpdateUser_update_call {σ : Type} (R : UserRepository σ) (H : Bcrypt) (st : σ)
    (user u : User) (hpw : user.Password ≠ "")
    (hcall : StoreCall.UpdateUser u ∈ (UpdateUser R H st user).calls) :
    H.GenerateFromPassword user.Password DefaultCost = .ok u.Password ∧
      u = { user with Password := u.Password } := by
  unfold UpdateUser at hcall
  rw [if_pos hpw] at hcall
  cases hg : H.GenerateFromPassword user.Password DefaultCost with
  | error e => simp [hg] at hcall
  | ok hashed =>
    simp only [hg] at hcall
    rcases updateAndFetch_calls R st _ _ hcall with h | h
    · cases h
      exact ⟨rfl, rfl⟩
    · cases h

theorem toyBcrypt_hash_ne (p h : String)
    (hgen : toyBcrypt.GenerateFromPassword p DefaultCost = .ok h) : h ≠ p := by
  have hh : h = "$2a$10$" ++ p := by
    simp only [toyBcrypt] at hgen
    cases hgen
    rfl
  intro heq
  rw [hh] at heq
  have hl := congrArg String.length heq
  simp [String.length_append] at hl
  exact absurd hl (by decide)

/-- C5: the password handed to the store is the output of the hasher, never the
plaintext. Whenever `Register` calls the insert of the repository, the password
argument is the result of `bcrypt.GenerateFromPassword` at the default cost on the
supplied plaintext (the other arguments being the supplied name, last name and
email); whenever `UpdateUser`, given a non-empty password, calls the update of the
repository, the record it passes is the supplied one with the password replaced by
that result. The hasher is a parameter, assumed never to return its own input;
under it the argument differs from the plaintext. -/
theorem store_password_is_hash {σ : Type} (R : UserRepository σ) (H : Bcrypt) (J : JwtLib)
    (jwtSecret : String) (st : σ)
    (hne : ∀ p h, H.GenerateFromPassword p DefaultCost = .ok h → h ≠ p) :
    (∀ (input : User) (nowToken : Time) (name lastName email password : String),
      StoreCall.RegisterUser name lastName email password ∈
        (Register R H J jwtSecret st input nowToken).calls →
      H.GenerateFromPassword input.Password DefaultCost = .ok password ∧
      password ≠ input.Password ∧
      name = input.Name ∧ lastName = input.LastName ∧ email = input.Email) ∧
    (∀ (user u : User), user.Password ≠ "" →
      StoreCall.UpdateUser u ∈ (UpdateUser R H st user).calls →
      H.GenerateFromPassword user.Password DefaultCost = .ok u.Password ∧
      u.Password ≠ user.Password ∧
      u = { user with Password := u.Password }) ∧
    (∀ (user : User) (hashed : String), user.Password ≠ "" →
      H.GenerateFromPassword user.Password DefaultCost = .ok hashed →
      UpdateUser R H st user = updateAndFetch R st { user with Password := hashed }) := by
  refine ⟨?_, ?_, ?_⟩
  · intro input nowToken name lastName email password hcall
    obtain ⟨hg, h1, h2, h3⟩ :=
      Register_insert_call R H J jwtSecret st input nowToken name lastName email password hcall
    exact ⟨hg, hne _ _ hg, h1, h2, h3⟩
  · intro user u hpw hcall
    obtain ⟨hg, hu⟩ := UpdateUser_update_call R H st user u hpw hcall
    exact ⟨hg, hne _ _ hg, hu⟩
  · intro user hashed hpw hg
    unfold UpdateUser
    rw [if_pos hpw]
    simp only [hg]

/-- Witness for C5: registering "c@x.com" with password "p3" in the store `db1`
reaches the insert with the hash of "p3", and updating user 1 with password "p4"
reaches the update with the hash of "p4". -/
theorem store_password_is_hash_witness :
    (toyBcrypt.GenerateFromPassword "p3" DefaultCost = .ok "$2a$10$p3" ∧
      "$2a$10$p3" ≠ "p3" ∧ "C" = "C" ∧ "D" = "D" ∧ "c@x.com" = "c@x.com") ∧
    (toyBcrypt.GenerateFromPassword "p4" DefaultCost = .ok "$2a$10$p4" ∧
      "$2a$10$p4" ≠ "p4" ∧
      (⟨1, "A", "B", "a@x.com", "", "$2a$10$p4"⟩ : User) =
        { (⟨1, "A", "B", "a@x.com", "", "p4"⟩ : User) with Password := "$2a$10$p4" }) :=
  ⟨(store_password_is_hash userRepositoryImpl toyBcrypt toyJwt "k" db1 toyBcrypt_hash_ne).1
      ⟨0, "C", "D", "c@x.com", "", "p3"⟩ t0 "C" "D" "c@x.com" "$2a$10$p3" (by decide),
   (store_password_is_hash userRepositoryImpl toyBcrypt toyJwt "k" db1 toyBcrypt_hash_ne).2.1
      ⟨1, "A", "B", "a@x.com", "", "p4"⟩ ⟨1, "A", "B", "a@x.com", "", "$2a$10$p4"⟩
      (by decide) (by decide)⟩

/-! ## Register on an email already in the store -/

theorem Register_of_found {σ : Type} (R : UserRepository σ) (H : Bcrypt) (J : JwtLib)
    (jwtSecret : String) (st : σ) (input : User) (nowToken : Time) (u : User)
    (hlook : (R.FindByEmail st input.Email).1 = (some u, none)) :
    Register R H J jwtSecret st input nowToken =
      ⟨"", some (.text "user already exists"), false, (R.FindByEmail st input.Email).2,
        [StoreCall.FindByEmail input.Email]⟩ := by
  simp only [Register]
  rw [hlook]

theorem implFindByEmail_of_mem (db : DB) (email : String) (hf : db.fault = none)
    (hmem : ∃ r ∈ db.users, r.Email = email) :
    ∃ u, implFindByEmail db email = ((some u, none), db) := by
  obtain ⟨r, hr, he⟩ := hmem
  cases hrows : db.users.filter (fun r => decide (r.Email = email)) with
  | nil =>
    rw [List.filter_eq_nil_iff] at hrows
    have := hrows r hr
    simp [he] at this
  | cons row rest => exact ⟨_, implFindByEmail_present db email row rest hf hrows⟩

theorem Register_impl_of_mem (H : Bcrypt) (J : JwtLib) (jwtSecret : String) (db : DB)
    (input : User) (nowToken : Time) (hf : db.fault = none)
    (hmem : ∃ r ∈ db.users, r.Email = input.Email) :
    Register userRepositoryImpl H J jwtSecret db input nowToken =
      ⟨"", some (.text "user already exists"), false, db,
        [StoreCall.FindByEmail input.Email]⟩ := by
  obtain ⟨u, hu⟩ := implFindByEmail_of_mem db input.Email hf hmem
  have h1 : (userRepositoryImpl.FindByEmail db input.Email).1 = (some u, none) := by
    show (implFindByEmail db input.Email).1 = _
    rw [hu]
  rw [Register_of_found userRepositoryImpl H J jwtSecret db input nowToken u h1]
  show RegisterResult.mk _ _ _ (implFindByEmail db input.Email).2 _ = _
  rw [hu]

theorem Register_impl_success (H : Bcrypt) (J : JwtLib) (jwtSecret : String) (db : DB)
    (input : User) (nowToken : Time)
    (hok : (Register userRepositoryImpl H J jwtSecret db input nowToken).err = none) :
    ∃ hashed, H.GenerateFromPassword input.Password DefaultCost = .ok hashed ∧
      (Register userRepositoryImpl H J jwtSecret db input nowToken).store =
        { users := db.users ++ [⟨db.nextId, input.Name, input.LastName, input.Email, "",
            hashed⟩],
          nextId := db.nextId + 1, fault := none } := by
  have hst : (userRepositoryImpl.FindByEmail db input.Email).2 = db :=
    implFindByEmail_store db input.Email
  have hok1 := hok
  simp only [Register] at hok1
  rcases hf : (userRepositoryImpl.FindByEmail db input.Email).1 with ⟨fu, fe⟩
  rw [hf] at hok1
  cases fe with
  | some e => simp at hok1
  | none =>
    cases fu with
    | some u => simp at hok1
    | none =>
      cases hg : H.GenerateFromPassword input.Password DefaultCost with
      | error e => simp [hg] at hok1
      | ok hashed =>
        refine ⟨hashed, rfl, ?_⟩
        simp only [hg] at hok1
        rw [hst] at hok1
        cases hfault : db.fault with
        | some msg =>
          have hi : userRepositoryImpl.RegisterUser db input.Name input.LastName input.Email
              hashed = ((none, some (.text msg)), db) := by
            show implRegisterUser db _ _ _ _ = _
            simp [implRegisterUser, hfault]
          rw [hi] at hok1
          simp at hok1
        | none =>
          have hi : userRepositoryImpl.RegisterUser db input.Name input.LastName input.Email
              hashed =
              ((some ⟨db.nextId, input.Name, input.LastName, input.Email, "", hashed⟩, none),
                { users := db.users ++ [⟨db.nextId, input.Name, input.LastName, input.Email,
                    "", hashed⟩],
                  nextId := db.nextId + 1, fault := none }) := by
            show implRegisterUser db _ _ _ _ = _
            simp [implRegisterUser, hfault, scanFirst]
          simp only [Register]
          rw [hf]
          simp only [hg]
          rw [hst, hi]
          simp only
          split <;> rfl

/-- C6: when the lookup by email finds an identity, `userService.Register` returns
an empty token and the error "user already exists" and its only call on the
repository is that lookup, so there is no insert. For the SQL repository: in every
healthy store holding a row with the email of the input, the store after the call
is the store before it; and after a `Register` that returned no error, a `Register`
with the same email fails this way and leaves the store as the first call left it. -/
theorem Register_existing_email (H : Bcrypt) (J : JwtLib) (jwtSecret : String) :
    (∀ (σ : Type) (R : UserRepository σ) (st : σ) (input u : User) (nowToken : Time),
      (R.FindByEmail st input.Email).1 = (some u, none) →
      (Register R H J jwtSecret st input nowToken).token = "" ∧
      (Register R H J jwtSecret st input nowToken).err =
        some (.text "user already exists") ∧
      (Register R H J jwtSecret st input nowToken).calls =
        [StoreCall.FindByEmail input.Email] ∧
      (Register R H J jwtSecret st input nowToken).store =
        (R.FindByEmail st input.Email).2) ∧
    (∀ (db : DB) (input : User) (nowToken : Time), db.fault = none →
      (∃ r ∈ db.users, r.Email = input.Email) →
      Register userRepositoryImpl H J jwtSecret db input nowToken =
        ⟨"", some (.text "user already exists"), false, db,
          [StoreCall.FindByEmail input.Email]⟩) ∧
    (∀ (db : DB) (input again : User) (nowToken nowAgain : Time),
      (Register userRepositoryImpl H J jwtSecret db input nowToken).err = none →
      again.Email = input.Email →
      Register userRepositoryImpl H J jwtSecret
          (Register userRepositoryImpl H J jwtSecret db input nowToken).store again nowAgain =
        ⟨"", some (.text "user already exists"), false,
          (Register userRepositoryImpl H J jwtSecret db input nowToken).store,
          [StoreCall.FindByEmail again.Email]⟩) := by
  refine ⟨?_, ?_, ?_⟩
  · intro σ R st input u nowToken hlook
    rw [Register_of_found R H J jwtSecret st input nowToken u hlook]
    exact ⟨rfl, rfl, rfl, rfl⟩
  · intro db input nowToken hf hmem
    exact Register_impl_of_mem H J jwtSecret db input nowToken hf hmem
  · intro db input again nowToken nowAgain hok hemail
    obtain ⟨hashed, _, hstore⟩ := Register_impl_success H J jwtSecret db input nowToken hok
    apply Register_impl_of_mem
    · rw [hstore]
    · rw [hstore]
      refine ⟨⟨db.nextId, input.Name, input.LastName, input.Email, "", hashed⟩, ?_, ?_⟩
      · simp
      · exact hemail.symm

/-- Witness for C6: in the store `db1`, registering the email of `alice` again is
refused, and so is registering "c@x.com" a second time. -/
theorem Register_existing_email_witness :
    Register userRepositoryImpl toyBcrypt toyJwt "k" db1 ⟨0, "X", "Y", "a@x.com", "", "p9"⟩ t0 =
      ⟨"", some (.text "user already exists"), false, db1,
        [StoreCall.FindByEmail "a@x.com"]⟩ ∧
    Register userRepositoryImpl toyBcrypt toyJwt "k"
        (Register userRepositoryImpl toyBcrypt toyJwt "k" db1
          ⟨0, "C", "D", "c@x.com", "", "p3"⟩ t0).store
        ⟨0, "E", "F", "c@x.com", "", "p5"⟩ t0 =
      ⟨"", some (.text "user already exists"), false,
        (Register userRepositoryImpl toyBcrypt toyJwt "k" db1
          ⟨0, "C", "D", "c@x.com", "", "p3"⟩ t0).store,
        [StoreCall.FindByEmail "c@x.com"]⟩ :=
  ⟨(Register_existing_email toyBcrypt toyJwt "k").2.1 db1 ⟨0, "X", "Y", "a@x.com", "", "p9"⟩ t0
      rfl ⟨alice, by decide, rfl⟩,
   (Register_existing_email toyBcrypt toyJwt "k").2.2 db1 ⟨0, "C", "D", "c@x.com", "", "p3"⟩
      ⟨0, "E", "F", "c@x.com", "", "p5"⟩ t0 t0 (by decide) rfl⟩

/-! ## UpdateUser: the stored hash and the missing identity -/

/-- C7, the code at the failing input: in the store `db1`, where user 1 has the hash
"$2a$10$p1", `UpdateUser` with an empty password makes no call to the hasher and
passes the empty password to the repository, whose UPDATE writes it: the stored
password of user 1 is the empty string afterwards. -/
theorem UpdateUser_empty_password_erases_hash (H : Bcrypt) :
    db1.users = [⟨1, "A", "B", "a@x.com", "", "$2a$10$p1"⟩] ∧
    (UpdateUser userRepositoryImpl H db1 ⟨1, "A", "B", "a@x.com", "", ""⟩).store.users =
      [⟨1, "A", "B", "a@x.com", "", ""⟩] ∧
    (UpdateUser userRepositoryImpl H db1 ⟨1, "A", "B", "a@x.com", "", ""⟩).calls =
      [StoreCall.UpdateUser ⟨1, "A", "B", "a@x.com", "", ""⟩, StoreCall.FindByID 1] ∧
    (UpdateUser userRepositoryImpl H db1 ⟨1, "A", "B", "a@x.com", "", ""⟩).user = none := by
  refine ⟨rfl, ?_, ?_, ?_⟩
  · simp [UpdateUser, updateAndFetch, userRepositoryImpl, implUpdateUser, implFindByID,
      applyUpdate, scanFirst, db1, alice]
  · simp [UpdateUser, updateAndFetch, userRepositoryImpl, implUpdateUser, implFindByID,
      applyUpdate, scanFirst, db1, alice]
  · simp [UpdateUser, updateAndFetch, userRepositoryImpl, implUpdateUser, implFindByID,
      applyUpdate, scanFirst, db1, alice]

/-- C8, the code at the failing input: in the store `db1`, which has no user 7,
`UpdateUser` on id 7 returns a nil user together with a nil error, after an update
and a fetch that both found no row. -/
theorem UpdateUser_missing_id_returns_nil_nil :
    (∀ r ∈ db1.users, r.Id ≠ 7) ∧
    (UpdateUser userRepositoryImpl toyBcrypt db1 ⟨7, "Z", "Y", "z@x.com", "", "p7"⟩).user = none ∧
    (UpdateUser userRepositoryImpl toyBcrypt db1 ⟨7, "Z", "Y", "z@x.com", "", "p7"⟩).err = none ∧
    (UpdateUser userRepositoryImpl toyBcrypt db1 ⟨7, "Z", "Y", "z@x.com", "", "p7"⟩).calls =
      [StoreCall.UpdateUser ⟨7, "Z", "Y", "z@x.com", "", "$2a$10$p7"⟩, StoreCall.FindByID 7] ∧
    (UpdateUser userRepositoryImpl toyBcrypt db1 ⟨7, "Z", "Y", "z@x.com", "", "p7"⟩).store = db1 := by
  refine ⟨by decide, by decide, by decide, by decide, by decide⟩

/-! ## Login and Logout: the session cookie -/

theorem Login_of_match {σ : Type} (R : UserRepository σ) (H : Bcrypt) (J : JwtLib)
    (jwtSecret : String) (st : σ) (input : LoginUser) (w : ResponseWriter)
    (nowToken nowCookie : Time) (user : User) (token : String)
    (hlook : (R.FindByEmail st input.Email).1 = (some user, none))
    (hcmp : H.CompareHashAndPassword user.Password input.Password = none)
    (hjwt : generateJWT J jwtSecret user nowToken = .ok token) :
    Login R H J jwtSecret st input w nowToken nowCookie =
      ⟨token, none,
        ⟨w.cookies ++ [⟨"session_token", token, nowCookie + 72 * Hour, true, false, "/",
          SameSite.LaxMode⟩]⟩,
        (R.FindByEmail st input.Email).2, [StoreCall.FindByEmail input.Email]⟩ := by
  simp [Login, hlook, hcmp, hjwt, SetCookie]

theorem Login_cookie_of_success {σ : Type} (R : UserRepository σ) (H : Bcrypt) (J : JwtLib)
    (jwtSecret : String) (st : σ) (input : LoginUser) (w : ResponseWriter)
    (nowToken nowCookie : Time)
    (hok : (Login R H J jwtSecret st input w nowToken nowCookie).err = none) :
    (Login R H J jwtSecret st input w nowToken nowCookie).w.cookies =
      w.cookies ++ [⟨"session_token",
        (Login R H J jwtSecret st input w nowToken nowCookie).token,
        nowCookie + 72 * Hour, true, false, "/", SameSite.LaxMode⟩] := by
  have hok1 := hok
  simp only [Login] at hok1
  rcases hf : (R.FindByEmail st input.Email).1 with ⟨fu, fe⟩
  rw [hf] at hok1
  cases fe with
  | some e =>
    simp only at hok1
    split at hok1 <;> simp at hok1
  | none =>
    cases fu with
    | none => simp at hok1
    | some user =>
      simp only at hok1
      cases hc : H.CompareHashAndPassword user.Password input.Password with
      | some e => simp [hc] at hok1
      | none =>
        cases hj : generateJWT J jwtSecret user nowToken with
        | error e => simp [hc, hj] at hok1
        | ok token =>
          rw [Login_of_match R H J jwtSecret st input w nowToken nowCookie user token hf hc hj]

/-- C9: when the lookup by email finds an identity, the hasher accepts the supplied
password against its stored hash and `generateJWT` succeeds for it, `Login` returns
that token with a nil error and adds exactly one cookie to the response: name
"session_token", value the returned token, expiry 72 hours after the clock reading,
HttpOnly, not Secure, path "/", SameSite Lax. For the SQL repository the identity is
the first row with the email of the input in a healthy store, and the store is left
as it was. -/
theorem Login_success (H : Bcrypt) (J : JwtLib) (jwtSecret : String) (input : LoginUser)
    (w : ResponseWriter) (nowToken nowCookie : Time) :
    (∀ (σ : Type) (R : UserRepository σ) (st : σ) (user : User) (token : String),
      (R.FindByEmail st input.Email).1 = (some user, none) →
      H.CompareHashAndPassword user.Password input.Password = none →
      generateJWT J jwtSecret user nowToken = .ok token →
      (Login R H J jwtSecret st input w nowToken nowCookie).token = token ∧
      (Login R H J jwtSecret st input w nowToken nowCookie).err = none ∧
      (Login R H J jwtSecret st input w nowToken nowCookie).w.cookies =
        w.cookies ++ [{ Name := "session_token", Value := token,
                        Expires := nowCookie + 72 * Hour, HttpOnly := true,
                        Secure := false, Path := "/", SameSite := SameSite.LaxMode }]) ∧
    (∀ (db : DB) (row : User) (rest : List User) (token : String), db.fault = none →
      db.users.filter (fun r => decide (r.Email = input.Email)) = row :: rest →
      H.CompareHashAndPassword row.Password input.Password = none →
      generateJWT J jwtSecret ⟨row.Id, row.Name, row.LastName, row.Email, "", row.Password⟩
        nowToken = .ok token →
      Login userRepositoryImpl H J jwtSecret db input w nowToken nowCookie =
        ⟨token, none,
          ⟨w.cookies ++ [⟨"session_token", token, nowCookie + 72 * Hour, true, false, "/",
            SameSite.LaxMode⟩]⟩,
          db, [StoreCall.FindByEmail input.Email]⟩) := by
  refine ⟨?_, ?_⟩
  · intro σ R st user token hlook hcmp hjwt
    rw [Login_of_match R H J jwtSecret st input w nowToken nowCookie user token hlook hcmp hjwt]
    exact ⟨rfl, rfl, rfl⟩
  · intro db row rest token hf hrow hcmp hjwt
    have h := implFindByEmail_present db input.Email row rest hf hrow
    have h1 : (userRepositoryImpl.FindByEmail db input.Email).1 =
        (some ⟨row.Id, row.Name, row.LastName, row.Email, "", row.Password⟩, none) := by
      show (implFindByEmail db input.Email).1 = _
      rw [h]
    rw [Login_of_match userRepositoryImpl H J jwtSecret db input w nowToken nowCookie _ token
      h1 hcmp hjwt]
    show LoginResult.mk _ _ _ (implFindByEmail db input.Email).2 _ = _
    rw [h]

/-- Witness for C9: `alice` logs in to the store `db1` with her password. -/
theorem Login_success_witness :
    Login userRepositoryImpl toyBcrypt toyJwt "k" db1 ⟨"a@x.com", "p1"⟩ ⟨[]⟩ t0 t0 =
      ⟨"tok1", none,
        ⟨[⟨"session_token", "tok1", t0 + 72 * Hour, true, false, "/", SameSite.LaxMode⟩]⟩,
        db1, [StoreCall.FindByEmail "a@x.com"]⟩ :=
  (Login_success toyBcrypt toyJwt "k" ⟨"a@x.com", "p1"⟩ ⟨[]⟩ t0 t0).2 db1 alice [] "tok1"
    rfl (by decide) (by decide) rfl

/-- C10: `userService.Logout` returns a nil error, makes no call on the repository
and leaves the store as it was, and adds exactly one cookie to the response: name
"session_token", empty value, expiry one hour before the clock reading and so
strictly before it, path "/", HttpOnly, not Secure, SameSite Lax. These are the
name, path and flags of the cookie that a `Login` returning no error has added. -/
theorem Logout_clears_cookie {σ : Type} (R : UserRepository σ) (st : σ) (w : ResponseWriter)
    (now : Time) :
    (Logout R st w now).err = none ∧
    (Logout R st w now).calls = [] ∧
    (Logout R st w now).store = st ∧
    (Logout R st w now).w.cookies =
      w.cookies ++ [{ Name := "session_token", Value := "", Expires := now - Hour,
                      HttpOnly := true, Secure := false, Path := "/",
                      SameSite := SameSite.LaxMode }] ∧
    now - Hour < now ∧
    (∀ (H : Bcrypt) (J : JwtLib) (jwtSecret : String) (input : LoginUser)
      (w0 : ResponseWriter) (nowToken nowCookie : Time),
      (Login R H J jwtSecret st input w0 nowToken nowCookie).err = none →
      ∃ cin cout,
        (Login R H J jwtSecret st input w0 nowToken nowCookie).w.cookies =
          w0.cookies ++ [cin] ∧
        (Logout R st w now).w.cookies = w.cookies ++ [cout] ∧
        cout.Name = cin.Name ∧ cout.Path = cin.Path ∧ cout.HttpOnly = cin.HttpOnly ∧
        cout.Secure = cin.Secure ∧ cout.SameSite = cin.SameSite) := by
  have hexp : now + (-1) * Hour = now - Hour := by ring
  have hcookies : (Logout R st w now).w.cookies =
      w.cookies ++ [{ Name := "session_token", Value := "", Expires := now - Hour,
                      HttpOnly := true, Secure := false, Path := "/",
                      SameSite := SameSite.LaxMode }] := by
    simp only [Logout, SetCookie, hexp]
  refine ⟨rfl, rfl, rfl, hcookies, ?_, ?_⟩
  · have hpos : (0 : Int) < Hour := by decide
    exact sub_lt_self now hpos
  · intro H J jwtSecret input w0 nowToken nowCookie hok
    exact ⟨_, _, Login_cookie_of_success R H J jwtSecret st input w0 nowToken nowCookie hok,
      hcookies, rfl, rfl, rfl, rfl, rfl⟩

/-- Witness for C10: the cookies of a login of `alice` and of a logout agree in name,
path and flags. -/
theorem Logout_clears_cookie_witness :
    ∃ cin cout,
      (Login userRepositoryImpl toyBcrypt toyJwt "k" db1 ⟨"a@x.com", "p1"⟩ ⟨[]⟩ t0 t0).w.cookies =
        ([] : List Cookie) ++ [cin] ∧
      (Logout userRepositoryImpl db1 ⟨[]⟩ t0).w.cookies = ([] : List Cookie) ++ [cout] ∧
      cout.Name = cin.Name ∧ cout.Path = cin.Path ∧ cout.HttpOnly = cin.HttpOnly ∧
      cout.Secure = cin.Secure ∧ cout.SameSite = cin.SameSite :=
  (Logout_clears_cookie userRepositoryImpl db1 ⟨[]⟩ t0).2.2.2.2.2 toyBcrypt toyJwt "k"
    ⟨"a@x.com", "p1"⟩ ⟨[]⟩ t0 t0 (by decide)

/-! ## The handlers: validation before the service -/

theorem UserController_Login_calls {τ β : Type} (G : Gin β) (S : UserService τ) (svc : τ)
    (body : β) (w : ResponseWriter) (c : ServiceCall)
    (hc : c ∈ (UserController.Login G S svc body w).calls) :
    ∃ data, G.ShouldBindLoginUser body = .ok data ∧ c = ServiceCall.Login data ∧
      data.Email ≠ "" ∧ data.Password ≠ "" := by
  simp only [UserController.Login] at hc
  cases hb : G.ShouldBindLoginUser body with
  | error e => simp [hb] at hc
  | ok data =>
    simp only [hb] at hc
    by_cases hv : data.Email = "" ∨ data.Password = ""
    · rw [if_pos hv] at hc
      simp at hc
    · rw [if_neg hv] at hc
      have hmem : c ∈ [ServiceCall.Login data] := by
        rcases hr : (S.Login svc data w).1 with ⟨tok, e⟩
        rw [hr] at hc
        cases e with
        | none => simpa using hc
        | some e =>
          simp only at hc
          split at hc
          · simpa using hc
          · split at hc <;> simpa using hc
      simp at hmem
      push_neg at hv
      exact ⟨data, rfl, hmem, hv.1, hv.2⟩

theorem UserController_Register_calls {τ β : Type} (G : Gin β) (S : UserService τ) (svc : τ)
    (body : β) (w : ResponseWriter) (c : ServiceCall)
    (hc : c ∈ (UserController.Register G S svc body w).calls) :
    ∃ data, G.ShouldBindUser body User.zero = .ok data ∧ c = ServiceCall.Register data ∧
      data.Name ≠ "" ∧ data.LastName ≠ "" ∧ data.Email ≠ "" ∧ data.Password ≠ "" := by
  simp only [UserController.Register] at hc
  cases hb : G.ShouldBindUser body User.zero with
  | error e => simp [hb] at hc
  | ok data =>
    simp only [hb] at hc
    by_cases hv : data.Name = "" ∨ data.LastName = "" ∨ data.Email = "" ∨ data.Password = ""
    · rw [if_pos hv] at hc
      simp at hc
    · rw [if_neg hv] at hc
      have hmem : c ∈ [ServiceCall.Register data] := by
        split at hc
        · simpa using hc
        · rcases hr : (S.Register svc data).1 with ⟨tok, e⟩
          rw [hr] at hc
          cases e with
          | none => simpa using hc
          | some e =>
            simp only at hc
            split at hc
            · simpa using hc
            · split at hc <;> simpa using hc
      simp at hmem
      push_neg at hv
      exact ⟨data, rfl, hmem, hv.1, hv.2.1, hv.2.2.1, hv.2.2.2⟩

/-- C11: validation comes before any use of the service. When the body binds to a
login record whose Email or Password is the empty string (the member was empty or
absent), `UserController.Login` answers 400 "Email and password are required",
makes no call on the service and leaves the service state and the response writer
as they were; when the body binds to a user record in which Name, LastName, Email
or Password is the empty string, `UserController.Register` answers 400 "All fields
are required" in the same way. A body that does not bind is answered 400 as well,
with "Invalid input format" (login) or "Invalid input data" and the text of the
binding error (registration), again without a call on the service. Every call the
two handlers do make on the service carries a record with all required fields
non-empty. -/
theorem validation_before_service {τ β : Type} (G : Gin β) (S : UserService τ) (svc : τ)
    (body : β) (w : ResponseWriter) :
    (∀ data, G.ShouldBindLoginUser body = .ok data →
      (data.Email = "" ∨ data.Password = "") →
      UserController.Login G S svc body w =
        ⟨⟨400, [("error", .str "Email and password are required")]⟩, w, svc, [], false⟩) ∧
    (∀ data, G.ShouldBindUser body User.zero = .ok data →
      (data.Name = "" ∨ data.LastName = "" ∨ data.Email = "" ∨ data.Password = "") →
      UserController.Register G S svc body w =
        ⟨⟨400, [("error", .str "All fields are required")]⟩, w, svc, [], false⟩) ∧
    (∀ err, G.ShouldBindLoginUser body = .error err →
      UserController.Login G S svc body w =
        ⟨⟨400, [("error", .str "Invalid input format")]⟩, w, svc, [], false⟩) ∧
    (∀ err, G.ShouldBindUser body User.zero = .error err →
      UserController.Register G S svc body w =
        ⟨⟨400, [("error", .str "Invalid input data"), ("details", .str err.Error)]⟩, w, svc,
          [], false⟩) ∧
    (∀ c ∈ (UserController.Login G S svc body w).calls,
      ∃ data, G.ShouldBindLoginUser body = .ok data ∧ c = ServiceCall.Login data ∧
        data.Email ≠ "" ∧ data.Password ≠ "") ∧
    (∀ c ∈ (UserController.Register G S svc body w).calls,
      ∃ data, G.ShouldBindUser body User.zero = .ok data ∧ c = ServiceCall.Register data ∧
        data.Name ≠ "" ∧ data.LastName ≠ "" ∧ data.Email ≠ "" ∧ data.Password ≠ "") := by
  refine ⟨?_, ?_, ?_, ?_, UserController_Login_calls G S svc body w,
    UserController_Register_calls G S svc body w⟩
  · intro data hb hv
    simp only [UserController.Login, hb]
    rw [if_pos hv]
  · intro data hb hv
    simp only [UserController.Register, hb]
    rw [if_pos hv]
  · intro err hb
    simp only [UserController.Login, hb]
  · intro err hb
    simp only [UserController.Register, hb]

/-- Witness for C11: the two bodies of the tests, a login without password and a
registration with a name only, against the service over the store `db1`. -/
theorem validation_before_service_witness :
    UserController.Login toyGin toyService db1 [("email", "john@example.com")] ⟨[]⟩ =
      ⟨⟨400, [("error", .str "Email and password are required")]⟩, ⟨[]⟩, db1, [], false⟩ ∧
    UserController.Register toyGin toyService db1 [("name", "John")] ⟨[]⟩ =
      ⟨⟨400, [("error", .str "All fields are required")]⟩, ⟨[]⟩, db1, [], false⟩ :=
  ⟨(validation_before_service toyGin toyService db1 [("email", "john@example.com")] ⟨[]⟩).1
      ⟨"john@example.com", ""⟩ rfl (Or.inr rfl),
   (validation_before_service toyGin toyService db1 [("name", "John")] ⟨[]⟩).2.1
      ⟨0, "John", "", "", "", ""⟩ rfl (Or.inr (Or.inl rfl))⟩

/-! ## The claims of a token -/

theorem Unix_add_day (now : Time) : Unix (now + 24 * Hour) = Unix now + 86400 := by
  unfold Unix Hour
  have h : now + 24 * (3600 * 1000000000) = now + 86400 * 1000000000 := by ring
  rw [h, Int.add_mul_ediv_right _ _ (by norm_num)]

/-- C13: the claims that `generateJWT` signs, for every user and every clock
reading: iat and nbf are the Unix second of the reading and exp, the Unix second
of the reading plus 24 hours, is that second plus 86400, so iat ≤ nbf ≤ exp; sub and user_id are the id of the user; user_Name,
user_LastName and user_Email are the name, last name and email of the user. -/
theorem generateJWT_claims (J : JwtLib) (jwtSecret : String) (user : User) (now : Time) :
    generateJWT J jwtSecret user now =
      J.SignedString SigningMethod.HS512 (jwtClaims user now) jwtSecret ∧
    (jwtClaims user now).lookup "iat" = some (.int (Unix now)) ∧
    (jwtClaims user now).lookup "nbf" = some (.int (Unix now)) ∧
    (jwtClaims user now).lookup "exp" = some (.int (Unix now + 86400)) ∧
    Unix now ≤ Unix now ∧ Unix now ≤ Unix now + 86400 ∧
    (jwtClaims user now).lookup "sub" = some (.int user.Id) ∧
    (jwtClaims user now).lookup "user_id" = some (.int user.Id) ∧
    (jwtClaims user now).lookup "user_Name" = some (.str user.Name) ∧
    (jwtClaims user now).lookup "user_LastName" = some (.str user.LastName) ∧
    (jwtClaims user now).lookup "user_Email" = some (.str user.Email) := by
  refine ⟨rfl, ?_, ?_, ?_, le_refl _, ?_, ?_, ?_, ?_, ?_, ?_⟩
  · simp [jwtClaims, List.lookup]
  · simp [jwtClaims, List.lookup]
  · simp [jwtClaims, List.lookup, Unix_add_day]
  · omega
  · simp [jwtClaims, List.lookup]
  · simp [jwtClaims, List.lookup]
  · simp [jwtClaims, List.lookup]
  · simp [jwtClaims, List.lookup]
  · simp [jwtClaims, List.lookup]

/-! ## The handlers on a failing store -/

theorem UpdateUser_handler_of_fault {β : Type} (G : Gin β) (H : Bcrypt) (J : JwtLib)
    (jwtSecret : String) (nowToken nowCookie : Time) (db : DB) (idParam : String) (body : β)
    (w : ResponseWriter) (id : Int) (user1 : User) (msg : String)
    (hid : G.Atoi idParam = .ok id)
    (hbind : G.ShouldBindUser body { User.zero with Id := id } = .ok user1)
    (hhash : user1.Password = "" ∨
      ∃ h, H.GenerateFromPassword user1.Password DefaultCost = .ok h)
    (hfault : db.fault = some msg) :
    (UserController.UpdateUser G
        (NewUserService userRepositoryImpl H J jwtSecret nowToken nowCookie) db idParam body
        w).response =
      ⟨500, [("error", .str "Failed to update user"), ("details", .str msg)]⟩ := by
  have hrepo : ∀ u : User, updateAndFetch userRepositoryImpl db u =
      ⟨none, some (.text msg), db, [StoreCall.UpdateUser u]⟩ := by
    intro u
    simp [updateAndFetch, userRepositoryImpl, implUpdateUser, hfault]
  have hsvc : UpdateUser userRepositoryImpl H db user1 =
      ⟨none, some (.text msg), db,
        (UpdateUser userRepositoryImpl H db user1).calls⟩ := by
    unfold UpdateUser
    rcases hhash with hp | ⟨h, hg⟩
    · simp [hp, hrepo]
    · by_cases hp : user1.Password = ""
      · simp [hp, hrepo]
      · simp [hp, hg, hrepo]
  simp only [UserController.UpdateUser, hid, hbind, NewUserService]
  rw [hsvc]
  simp [GoError.Error]

/-- C12, the code at the failing input: the same update request against the store
`db1` behind a failing connection, once with the driver error "dial tcp
10.0.0.5:5432: connect: connection refused" and once with "pq: password
authentication failed for user admin". `UserController.UpdateUser` answers 500 with
the text of the driver error under "details", so the two responses differ; on the
same two stores `UserController.Login` and `UserController.Register` answer with
fixed messages. -/
theorem UpdateUser_handler_echoes_store_error :
    (UserController.UpdateUser toyGin toyService
        (dbDown "dial tcp 10.0.0.5:5432: connect: connection refused") "1"
        [("name", "A"), ("lastName", "B"), ("email", "a@x.com"), ("password", "p4")]
        ⟨[]⟩).response =
      ⟨500, [("error", .str "Failed to update user"),
             ("details", .str "dial tcp 10.0.0.5:5432: connect: connection refused")]⟩ ∧
    (UserController.UpdateUser toyGin toyService
        (dbDown "pq: password authentication failed for user admin") "1"
        [("name", "A"), ("lastName", "B"), ("email", "a@x.com"), ("password", "p4")]
        ⟨[]⟩).response =
      ⟨500, [("error", .str "Failed to update user"),
             ("details", .str "pq: password authentication failed for user admin")]⟩ ∧
    (UserController.UpdateUser toyGin toyService
        (dbDown "dial tcp 10.0.0.5:5432: connect: connection refused") "1"
        [("name", "A"), ("lastName", "B"), ("email", "a@x.com"), ("password", "p4")]
        ⟨[]⟩).response ≠
    (UserController.UpdateUser toyGin toyService
        (dbDown "pq: password authentication failed for user admin") "1"
        [("name", "A"), ("lastName", "B"), ("email", "a@x.com"), ("password", "p4")]
        ⟨[]⟩).response ∧
    (∀ msg ∈ ["dial tcp 10.0.0.5:5432: connect: connection refused",
              "pq: password authentication failed for user admin"],
      (UserController.Login toyGin toyService (dbDown msg)
          [("email", "a@x.com"), ("password", "p1")] ⟨[]⟩).response =
        ⟨500, [("error", .str "An unexpected error occurred")]⟩ ∧
      (UserController.Register toyGin toyService (dbDown msg)
          [("name", "C"), ("lastName", "D"), ("email", "c@x.com"), ("password", "p3")]
          ⟨[]⟩).response =
        ⟨500, [("error", .str "Failed to register the user")]⟩) := by
  refine ⟨by decide, by decide, by decide, by decide⟩

end CrudGo
